import Mathlib

/-!
Shallow embedding of the `benchmark-runner` crate of `webserver-benchmarks`,
covering the process lifecycle manager (`src/process_manager.rs`), the
concurrent execution engine (`run_requests` in `src/main.rs`), the readiness
probe (`src/http.rs`) and the matrix-multiplication benchmark fixtures
(`src/benchmarks/matrix_multiplication.rs`).

Modelling conventions:
* A `std::process::Child` behind an `Arc<Mutex<_>>` is modelled as a `Child`
  value carrying its pid, its liveness (`running`), and two environment flags:
  whether locking its mutex fails (`lockFails`, a poisoned lock) and whether
  `try_wait` returns `Err` (`tryWaitErr`).
* The registry `Arc<Mutex<Vec<Option<Arc<Mutex<Child>>>>>>` is a `Registry`:
  a list of optional children plus a flag for failure of its own lock.
* Durations and instants are `Nat`s (milliseconds-like); `Instant::elapsed`
  becomes truncated subtraction.
* Fallible Rust functions returning `Result` become functions returning an
  `Option` error code paired with the updated state, so that the state after
  a failed call is still observable.
-/

/-- Model of one spawned OS process (`std::process::Child` plus the state of
the mutex wrapping it). `running = true` means the process has not exited. -/
structure Child where
  pid : Nat
  running : Bool
  lockFails : Bool
  tryWaitErr : Bool
deriving DecidableEq, Repr

/-- Model of `ProcessManagerError` from `process_manager.rs`. -/
inductive PMError where
  | Lock
  | SetHandler (msg : String)
  | ChildNotFound (pid : Nat)
deriving DecidableEq, Repr

/-- Model of the process registry
`Arc<Mutex<Vec<Option<Arc<Mutex<Child>>>>>>`: the vector of slots plus a flag
saying whether acquiring the registry's own lock fails. -/
structure Registry where
  lockFails : Bool
  slots : List (Option Child)
deriving DecidableEq, Repr

/-- Embedding of `kill_process` (process_manager.rs:114-136): lock the child
(lock failure is a `Lock` error); `try_wait` returning `Ok(Some _)` means the
process already exited (no-op); `Ok(None)` means it is running, so it is
killed and waited for; `Err` is only logged and the call still succeeds.
Returns the error, if any, together with the final state of the child. -/
def kill_process (process : Child) : Option PMError × Child :=
  if process.lockFails then (some PMError.Lock, process)
  else if process.tryWaitErr then (none, process)
  else if process.running then (none, { process with running := false })
  else (none, process)

/-- Embedding of the `while let Some(process) = processes.pop()` loop of
`kill_processes` (process_manager.rs:106-110). The input list is in pop
order (the reverse of the vector). Returns the first error (if any), the
entries not yet popped when the loop stopped (still in pop order), and the
final states of the children that were popped and processed successfully. -/
def killLoop : List (Option Child) → Option PMError × List (Option Child) × List Child
  | [] => (none, [], [])
  | o :: rest =>
    match o with
    | none => killLoop rest
    | some c =>
      match kill_process c with
      | (some e, _) => (some e, rest, [])
      | (none, c2) =>
        let r := killLoop rest
        (r.1, r.2.1, c2 :: r.2.2)

/-- Embedding of `kill_processes` (process_manager.rs:99-112): lock the
registry, then pop-and-kill until empty, aborting on the first per-entry
error (the `?` on `kill_process`). Returns the error (if any), the registry
as left by the loop, and the final states of the processed children. -/
def kill_processes (reg : Registry) : Option PMError × Registry × List Child :=
  if reg.lockFails then (some PMError.Lock, reg, [])
  else
    let r := killLoop reg.slots.reverse
    (r.1, { reg with slots := r.2.1.reverse }, r.2.2)

/-- Embedding of `ProcessManager::push` (process_manager.rs:40-47): lock the
registry and append the child as a fresh occupied slot. -/
def ProcessManager.push (reg : Registry) (child : Child) : Option PMError × Registry :=
  if reg.lockFails then (some PMError.Lock, reg)
  else (none, { reg with slots := reg.slots ++ [some child] })

/-- Embedding of the `children.iter().position(..)` scan inside
`ProcessManager::kill` (process_manager.rs:61-81): find the first occupied
slot whose child has the given pid, recording in the second component whether
locking some examined child failed (the `lock_error` flag). The scan
short-circuits at the first match, exactly like `Iterator::position`. -/
def scanPos (pid : Nat) : List (Option Child) → Option Nat × Bool
  | [] => (none, false)
  | slot :: rest =>
    match slot with
    | none =>
      let r := scanPos pid rest
      (r.1.map (· + 1), r.2)
    | some c =>
      if c.lockFails then
        let r := scanPos pid rest
        (r.1.map (· + 1), true)
      else if c.pid = pid then (some 0, false)
      else
        let r := scanPos pid rest
        (r.1.map (· + 1), r.2)

/-- Embedding of `ProcessManager::kill` (process_manager.rs:49-90): read the
pid of the argument child (its own lock may fail), lock the registry, scan
for the position of a child with that pid, fail with `Lock` if any examined
child's lock failed, remove the found slot and `kill_process` it, or fail
with `ChildNotFound` when no slot matches. Returns the error (if any) and
the registry as left by the call. -/
def ProcessManager.kill (reg : Registry) (child : Child) : Option PMError × Registry :=
  if child.lockFails then (some PMError.Lock, reg)
  else if reg.lockFails then (some PMError.Lock, reg)
  else
    let s := scanPos child.pid reg.slots
    if s.2 then (some PMError.Lock, reg)
    else
      match s.1 with
      | some p =>
        match reg.slots[p]? with
        | some (some c) =>
          let reg2 := { reg with slots := reg.slots.eraseIdx p }
          match kill_process c with
          | (some e, _) => (some e, reg2)
          | (none, _) => (none, reg2)
        | _ => (none, { reg with slots := reg.slots.eraseIdx p })
      | none => (some (PMError.ChildNotFound child.pid), reg)

/-- Model of a constructed `ProcessManager` together with the registry
captured by the Ctrl+C handler. `ProcessManager::new`
(process_manager.rs:24-38) creates a registry `processes`, clones that `Arc`
into the interrupt handler closure, but then stores `Default::default()` —
a second, fresh registry — in the returned struct. The two fields model
those two distinct registries. -/
structure PMFull where
  handlerProcs : Registry
  procs : Registry
deriving DecidableEq, Repr

/-- Embedding of `ProcessManager::new` (process_manager.rs:24-38): the
handler captures the first registry, the struct field is
`Default::default()`, i.e. a distinct empty registry. -/
def ProcessManager.new : PMFull :=
  { handlerProcs := { lockFails := false, slots := [] },
    procs := { lockFails := false, slots := [] } }

/-- Registering a child on the constructed manager: `push` acts on the
struct field `self.processes` (process_manager.rs:40-47). -/
def PMFull.push (pm : PMFull) (child : Child) : Option PMError × PMFull :=
  let r := ProcessManager.push pm.procs child
  (r.1, { pm with procs := r.2 })

/-- Embedding of the Ctrl+C handler closure installed by
`ProcessManager::new` (process_manager.rs:29-32): it runs `kill_processes`
on the registry it captured and then calls `std::process::exit(0)`.
Returns the manager state afterwards and `some exitCode` on a clean exit;
`none` models the `unwrap()` panicking when `kill_processes` fails. -/
def PMFull.onInterrupt (pm : PMFull) : PMFull × Option Nat :=
  let r := kill_processes pm.handlerProcs
  match r.1 with
  | none => ({ pm with handlerProcs := r.2.1 }, some 0)
  | some _ => ({ pm with handlerProcs := r.2.1 }, none)

/-- The registry invariant of the spec data model: a live process identifier
appears in at most one occupied slot. -/
def slotRel (a b : Option Child) : Prop :=
  ∀ ca cb, a = some ca → b = some cb → ca.running = true → cb.running = true → ca.pid ≠ cb.pid

/-- A registry satisfies the invariant when every pair of distinct slots is
related by `slotRel`. -/
def Registry.inv (reg : Registry) : Prop :=
  reg.slots.Pairwise slotRel

/-- Model of `BenchmarkError` from `main.rs` (lines 40-59); each variant
carries the display string of its payload. -/
inductive BenchmarkError where
  | ProcessManager (msg : String)
  | Io (msg : String)
  | Docker (msg : String)
  | Http (msg : String)
  | HttpReqwest (msg : String)
  | Json (msg : String)
deriving DecidableEq, Repr

/-- Display of a `BenchmarkError` (`thiserror` format strings in
main.rs:40-59), as used by `format!("{err}")`. -/
def BenchmarkError.msg : BenchmarkError → String
  | BenchmarkError.ProcessManager s => "Process Manager: " ++ s
  | BenchmarkError.Io s => "IO: " ++ s
  | BenchmarkError.Docker s => "Docker: " ++ s
  | BenchmarkError.Http s => "HTTP: " ++ s
  | BenchmarkError.HttpReqwest s => "HTTP Reqwest: " ++ s
  | BenchmarkError.Json s => "JSON Serde: " ++ s

/-- Model of `BenchmarkResult` (main.rs:61-76); `Ok` carries the fields of
`BenchmarkOkResult` (a duration and an iteration count, both as `Nat`). -/
inductive BenchmarkResult where
  | Ok (time : Nat) (iterations : Nat)
  | InvalidStatusCode (code : Nat)
  | InvalidResponse (message : String)
  | UnhandledError (message : String)
deriving DecidableEq, Repr

/-- `true` exactly on the `Ok` (Success) variant of an outcome. -/
def isSuccess : BenchmarkResult → Bool
  | BenchmarkResult.Ok _ _ => true
  | _ => false

/-- Model of the `Benchmark` trait (main.rs:174-187), abstracted over the
response type `ρ` (`reqwest::Response` is opaque to the engine).
`makeRequest i` and `checkResponse i start response` model the two trait
methods; `taskAborts i` models the environment possibility that the tokio
task spawned for iteration `i` aborts (panics), making `join_all` deliver a
`JoinError` with the given display string instead of a value. -/
structure Scenario (ρ : Type) where
  makeRequest : Nat → Except BenchmarkError ρ
  checkResponse : Nat → Nat → ρ → Except BenchmarkError BenchmarkResult
  taskAborts : Nat → Option String

/-- The instants read by `run_requests`: `warmNow` is the `Instant::now()`
passed to the warm-up `check_response` (main.rs:197), `batchStart` the
instant sampled after the warm-up (main.rs:204), `taskStart i` the instant
sampled inside task `i` (main.rs:210), and `batchStop` the instant at which
`start.elapsed()` is read after `join_all` (main.rs:219). -/
structure Clock where
  warmNow : Nat
  batchStart : Nat
  taskStart : Nat → Nat
  batchStop : Nat

/-- Body of the spawned task for iteration `i` (main.rs:209-215): make the
request, propagate its error, otherwise validate the response. -/
def taskBody {ρ : Type} (b : Scenario ρ) (clk : Clock) (i : Nat) :
    Except BenchmarkError BenchmarkResult :=
  match b.makeRequest i with
  | Except.error e => Except.error e
  | Except.ok resp => b.checkResponse i (clk.taskStart i) resp

/-- The value `join_all` delivers for task `i`: a `JoinError` display string
if the task aborted, otherwise the task body's result
(`Result<Result<BenchmarkResult, BenchmarkError>, JoinError>`). -/
def taskJoin {ρ : Type} (b : Scenario ρ) (clk : Clock) (i : Nat) :
    Except String (Except BenchmarkError BenchmarkResult) :=
  match b.taskAborts i with
  | some e => Except.error e
  | none => Except.ok (taskBody b clk i)

/-- Embedding of the reduction loop of `run_requests` (main.rs:221-240):
scan the collected task results in order; skip `Ok(Ok(Ok _))`; a non-Success
outcome is returned as-is; a task error or a join error is folded into an
`InvalidResponse` with a "one or more requests failed" message. Returns
`none` when every result is a Success. -/
def reduceResults :
    List (Except String (Except BenchmarkError BenchmarkResult)) → Option BenchmarkResult
  | [] => none
  | r :: rest =>
    match r with
    | Except.ok (Except.ok (BenchmarkResult.Ok _ _)) => reduceResults rest
    | Except.ok (Except.ok other) => some other
    | Except.ok (Except.error e) =>
      some (BenchmarkResult.InvalidResponse ("one or more requests failed: " ++ e.msg))
    | Except.error e =>
      some (BenchmarkResult.InvalidResponse ("one or more requests failed: " ++ e))

/-- `true` when a joined task result is a Success outcome. -/
def joinSuccess : Except String (Except BenchmarkError BenchmarkResult) → Bool
  | Except.ok (Except.ok (BenchmarkResult.Ok _ _)) => true
  | _ => false

/-- The verdict a single joined task result contributes to the reduction:
`none` for a Success, otherwise the non-Success outcome the reducer would
return for it. -/
def joinVerdict : Except String (Except BenchmarkError BenchmarkResult) → Option BenchmarkResult
  | Except.ok (Except.ok (BenchmarkResult.Ok _ _)) => none
  | Except.ok (Except.ok other) => some other
  | Except.ok (Except.error e) =>
    some (BenchmarkResult.InvalidResponse ("one or more requests failed: " ++ e.msg))
  | Except.error e =>
    some (BenchmarkResult.InvalidResponse ("one or more requests failed: " ++ e))

/-- First non-Success outcome in a list of outcomes, in scan order. -/
def firstNonSuccess : List BenchmarkResult → Option BenchmarkResult
  | [] => none
  | x :: xs => if isSuccess x then firstNonSuccess xs else some x

/-- Embedding of `run_requests` (main.rs:189-242). The second component of
the result is the trace of scenario invocations: the iteration index of each
`make_request` call the engine performs, warm-up first (the warm-up always
uses index 0, main.rs:195-197), then one entry per spawned task that runs
(aborted tasks perform no call). Warm-up errors propagate (`?`); a
non-Success warm-up outcome is returned with no task launched; otherwise the
batch is spawned, joined, timed with `clk.batchStop - clk.batchStart`, and
reduced. -/
def run_requests {ρ : Type} (iterations : Nat) (b : Scenario ρ) (clk : Clock) :
    Except BenchmarkError BenchmarkResult × List Nat :=
  match b.makeRequest 0 with
  | Except.error e => (Except.error e, [0])
  | Except.ok response =>
    match b.checkResponse 0 clk.warmNow response with
    | Except.error e => (Except.error e, [0])
    | Except.ok (BenchmarkResult.Ok _ _) =>
      let results := (List.range iterations).map (taskJoin b clk)
      let time := clk.batchStop - clk.batchStart
      let trace := 0 :: (List.range iterations).filterMap (fun i =>
        match b.taskAborts i with
        | some _ => none
        | none => some i)
      match reduceResults results with
      | some other => (Except.ok other, trace)
      | none => (Except.ok (BenchmarkResult.Ok time iterations), trace)
    | Except.ok other => (Except.ok other, [0])

/-- Model of `HttpError` from `http.rs`. -/
inductive HttpError where
  | Reqwest (msg : String)
  | Timeout
deriving DecidableEq, Repr

/-- Embedding of the polling loop of `http_wait_for_url` (http.rs:25-38).
`up k` tells whether attempt `k` sees a non-error HTTP status, `dur k` how
long attempt `k` itself takes; each loop iteration also sleeps
`check_interval`. State: remaining fuel, elapsed time at the loop head, and
the index of the next attempt. Returns the loop's result and the total
number of attempts issued. The fuel is a totality device only: with
`1 ≤ check_interval` the loop always exits on its own before fuel
`max_check_time + 1` runs out (the fuel branch mirrors the loop-exit
result so exhaustion is indistinguishable from a timeout). -/
def waitLoop (up : Nat → Bool) (dur : Nat → Nat) (check_interval max_check_time : Nat) :
    Nat → Nat → Nat → Except HttpError Unit × Nat
  | 0, _, k => (Except.error HttpError.Timeout, k)
  | fuel + 1, elapsed, k =>
    if elapsed < max_check_time then
      if up k then (Except.ok (), k + 1)
      else waitLoop up dur check_interval max_check_time fuel (elapsed + dur k + check_interval) (k + 1)
    else (Except.error HttpError.Timeout, k)

/-- Embedding of `http_wait_for_url` (http.rs:14-41): start the loop with
zero elapsed time at attempt 0. -/
def http_wait_for_url (up : Nat → Bool) (dur : Nat → Nat)
    (check_interval max_check_time : Nat) : Except HttpError Unit × Nat :=
  waitLoop up dur check_interval max_check_time (max_check_time + 1) 0 0

/-- Elapsed time at the head of loop iteration `k` when no attempt has
succeeded yet: each earlier iteration added its request duration plus one
sleep of `check_interval`. -/
def elapsedAt (dur : Nat → Nat) (check_interval : Nat) : Nat → Nat
  | 0 => 0
  | k + 1 => elapsedAt dur check_interval k + dur k + check_interval

/-- A matrix as in `matrix_multiplication.rs` (`type Matrix = Vec<Vec<f64>>`);
the `f64` entries are modelled as `Nat` since the claims about this module
concern only shapes and indices. -/
def Mat : Type := List (List Nat)

/-- `ROWS` constant (matrix_multiplication.rs:14). -/
def ROWS : Nat := 101

/-- `COLUMNS` constant (matrix_multiplication.rs:15). -/
def COLUMNS : Nat := 101

/-- Embedding of `generate_matrix` (matrix_multiplication.rs:157-170): a
`rows × columns` matrix whose entry `(i, j)` is produced by the seeded
random generator, abstracted as `gen seed i j`. -/
def generate_matrix (gen : Nat → Nat → Nat → Nat) (seed rows columns : Nat) : Mat :=
  (List.range rows).map (fun i => (List.range columns).map (fun j => gen seed i j))

/-- Embedding of `new_matrix` (matrix_multiplication.rs:131-133). -/
def new_matrix (rows columns : Nat) : Mat :=
  List.replicate rows (List.replicate columns 0)

/-- The fold `a_row.iter().zip(b2j).fold(0, |acc, (&x, y)| acc + x * y)` of
`matrix_multiply` (matrix_multiplication.rs:150). -/
def dotProd (xs ys : List Nat) : Nat :=
  (xs.zip ys).foldl (fun acc xy => acc + xy.1 * xy.2) 0

/-- Embedding of `matrix_multiply` (matrix_multiplication.rs:135-155):
transpose `matrix2` into `b2` (an `n × p` matrix initialised to zeros and
overwritten at `[j][i]` from `matrix2[i][j]`), then fill an `m × p` result by
zipping rows of the zero matrix with rows of `matrix1` and entries with rows
of `b2`. -/
def matrix_multiply (matrix1 matrix2 : Mat) : Mat :=
  let m := matrix1.length
  let n := (matrix1.headD []).length
  let p := (matrix2.headD []).length
  let b2 : Mat := (List.range n).map (fun j =>
    (List.range p).map (fun i => ((matrix2.getD i []).getD j 0)))
  ((new_matrix m p).zip matrix1).map (fun cia =>
    (cia.1.zip b2).map (fun cb => dotProd cia.2 cb.2))

/-- Model of the `MatrixMultiplicationBenchmark` struct
(matrix_multiplication.rs:17-20). -/
structure MatrixMultiplicationBenchmark where
  matrices : List Mat
  expected : List Mat

/-- Embedding of the fixture construction in `benchmark_matrix_multiplication`
(matrix_multiplication.rs:114-126): `iterations + 1` generated matrices and
`iterations` precomputed products of consecutive matrices. -/
def benchmark_matrix_multiplication_fixture (gen : Nat → Nat → Nat → Nat)
    (iterations : Nat) : MatrixMultiplicationBenchmark :=
  { matrices := (List.range (iterations + 1)).map
      (fun i => generate_matrix gen i ROWS COLUMNS),
    expected :=
      let matrices := (List.range (iterations + 1)).map
        (fun i => generate_matrix gen i ROWS COLUMNS)
      (List.range iterations).map
        (fun i => matrix_multiply (matrices.getD i []) (matrices.getD (i + 1) [])) }

/-- The fixture reads performed by
`MatrixMultiplicationBenchmark::make_request` (matrix_multiplication.rs:42-43):
`self.matrices[iteration]` and `self.matrices[iteration + 1]`. `none` models
the index panic. -/
def mm_make_request_reads (b : MatrixMultiplicationBenchmark) (iteration : Nat) :
    Option (Mat × Mat) :=
  match b.matrices[iteration]? with
  | none => none
  | some matrix1 =>
    match b.matrices[iteration + 1]? with
    | none => none
    | some matrix2 => some (matrix1, matrix2)

/-- The fixture read performed by
`MatrixMultiplicationBenchmark::check_response` (matrix_multiplication.rs:68):
`self.expected[iteration]`. `none` models the index panic. -/
def mm_check_response_read (b : MatrixMultiplicationBenchmark) (iteration : Nat) :
    Option Mat :=
  b.expected[iteration]?

/-- A concrete clock used by concrete evaluations. -/
def cClk : Clock :=
  { warmNow := 7, batchStart := 10, taskStart := fun i => 10 + i, batchStop := 30 }

/-- A concrete scenario whose warm-up validation fails with a status error. -/
def failWarmScn : Scenario Nat :=
  { makeRequest := fun _ => Except.ok 0,
    checkResponse := fun _ _ _ => Except.ok (BenchmarkResult.InvalidStatusCode 500),
    taskAborts := fun _ => none }

/-- A concrete always-succeeding scenario. -/
def allOkScn : Scenario Nat :=
  { makeRequest := fun i => Except.ok i,
    checkResponse := fun _ t _ => Except.ok (BenchmarkResult.Ok t 1),
    taskAborts := fun _ => none }

/-- A concrete scenario in which only iteration 1 fails validation (the
warm-up, which uses iteration 0, succeeds). -/
def oneBadScn : Scenario Nat :=
  { makeRequest := fun _ => Except.ok 0,
    checkResponse := fun i t _ =>
      if i = 1 then Except.ok (BenchmarkResult.InvalidResponse "bad value")
      else Except.ok (BenchmarkResult.Ok t 1),
    taskAborts := fun _ => none }

/-- A concrete scenario in which the task of iteration 1 returns an error
value and all other invocations succeed. -/
def oneErrScn : Scenario Nat :=
  { makeRequest := fun i =>
      if i = 1 then Except.error (BenchmarkError.HttpReqwest "connection reset")
      else Except.ok 0,
    checkResponse := fun _ t _ => Except.ok (BenchmarkResult.Ok t 1),
    taskAborts := fun _ => none }

/-- A concrete scenario whose warm-up request itself fails with a transport
error. -/
def warmErrScn : Scenario Nat :=
  { makeRequest := fun _ => Except.error (BenchmarkError.HttpReqwest "refused"),
    checkResponse := fun _ t _ => Except.ok (BenchmarkResult.Ok t 1),
    taskAborts := fun _ => none }

/-- A concrete scenario whose warm-up validation raises an error (rather
than returning a non-Success outcome). -/
def warmCkErrScn : Scenario Nat :=
  { makeRequest := fun _ => Except.ok 0,
    checkResponse := fun _ _ _ => Except.error (BenchmarkError.Json "eof"),
    taskAborts := fun _ => none }

/-- A concrete scenario in which the spawned task of iteration 1 aborts and
every scenario invocation succeeds. -/
def abortScn : Scenario Nat :=
  { makeRequest := fun _ => Except.ok 0,
    checkResponse := fun _ t _ => Except.ok (BenchmarkResult.Ok t 1),
    taskAborts := fun i => if i = 1 then some "task panicked" else none }

/-- A running child with a healthy mutex, as a concrete test subject. -/
def c1Child : Child := { pid := 1, running := true, lockFails := false, tryWaitErr := false }

/-- A running child whose `try_wait` probe fails, as a concrete test
subject. -/
def c7Child : Child := { pid := 1, running := true, lockFails := false, tryWaitErr := true }

/-- C1: the claim states that the handler installed by `ProcessManager::new`
terminates every process previously registered via `push` and then exits
with status 0. The code violates this: the handler closure captures the
registry created at the top of `new` (process_manager.rs:28-32), but the
returned struct stores `Default::default()` — a distinct fresh registry
(process_manager.rs:36) — so `push` writes to a registry the handler never
sees. Concretely: after registering a running process with pid 1, the
interrupt ends the process with exit status 0 while the registered process
is still in the manager's registry and still running. -/
theorem interrupt_handler_kills_nothing_registered :
    ((ProcessManager.new.push c1Child).2.onInterrupt).2 = some 0
    ∧ ((ProcessManager.new.push c1Child).2.onInterrupt).1.procs.slots = [some c1Child]
    ∧ c1Child.running = true
    ∧ (ProcessManager.new.push c1Child).1 = none :=
  ⟨rfl, rfl, rfl, rfl⟩

/-- C2: if the warm-up invocation returns a non-Success outcome, `run_requests`
returns that outcome immediately, and the invocation trace is exactly `[0]`:
one scenario invocation, the warm-up, with no concurrent task launched
(main.rs:195-202). -/
theorem warmup_failure_short_circuits {ρ : Type} (N : Nat) (b : Scenario ρ) (clk : Clock)
    (resp : ρ) (r : BenchmarkResult)
    (hmk : b.makeRequest 0 = Except.ok resp)
    (hck : b.checkResponse 0 clk.warmNow resp = Except.ok r)
    (hns : isSuccess r = false) :
    run_requests N b clk = (Except.ok r, [0]) := by
  cases r with
  | Ok t i => simp [isSuccess] at hns
  | InvalidStatusCode c => simp [run_requests, hmk, hck]
  | InvalidResponse m => simp [run_requests, hmk, hck]
  | UnhandledError m => simp [run_requests, hmk, hck]

/-- Witness for C2 at the concrete failing-warm-up scenario. -/
theorem warmup_failure_short_circuits_witness :
    run_requests 3 failWarmScn cClk = (Except.ok (BenchmarkResult.InvalidStatusCode 500), [0]) :=
  warmup_failure_short_circuits 3 failWarmScn cClk 0
    (BenchmarkResult.InvalidStatusCode 500) rfl rfl rfl

/-- A Success result contributes no verdict. -/
theorem joinVerdict_eq_none (x : Except String (Except BenchmarkError BenchmarkResult))
    (h : joinSuccess x = true) : joinVerdict x = none := by
  cases x with
  | error e => simp [joinSuccess] at h
  | ok y =>
    cases y with
    | error e => simp [joinSuccess] at h
    | ok r => cases r <;> simp_all [joinSuccess, joinVerdict]

/-- A non-Success result contributes a verdict. -/
theorem joinVerdict_eq_some (x : Except String (Except BenchmarkError BenchmarkResult))
    (h : joinSuccess x = false) : ∃ r, joinVerdict x = some r := by
  cases x with
  | error e => exact ⟨_, rfl⟩
  | ok y =>
    cases y with
    | error e => exact ⟨_, rfl⟩
    | ok r => cases r <;> simp_all [joinSuccess, joinVerdict]

/-- A verdict is never a Success outcome. -/
theorem joinVerdict_some_not_success (x : Except String (Except BenchmarkError BenchmarkResult))
    (r : BenchmarkResult) (h : joinVerdict x = some r) : isSuccess r = false := by
  cases x with
  | error e =>
    simp only [joinVerdict, Option.some.injEq] at h
    subst h; rfl
  | ok y =>
    cases y with
    | error e =>
      simp only [joinVerdict, Option.some.injEq] at h
      subst h; rfl
    | ok b =>
      cases b with
      | Ok t i => simp [joinVerdict] at h
      | InvalidStatusCode c =>
        simp only [joinVerdict, Option.some.injEq] at h
        subst h; rfl
      | InvalidResponse m =>
        simp only [joinVerdict, Option.some.injEq] at h
        subst h; rfl
      | UnhandledError m =>
        simp only [joinVerdict, Option.some.injEq] at h
        subst h; rfl

/-- A result without a verdict is skipped by the reduction loop. -/
theorem reduceResults_cons_none (x : Except String (Except BenchmarkError BenchmarkResult))
    (l : List (Except String (Except BenchmarkError BenchmarkResult)))
    (h : joinVerdict x = none) : reduceResults (x :: l) = reduceResults l := by
  cases x with
  | error e => simp [joinVerdict] at h
  | ok y =>
    cases y with
    | error e => simp [joinVerdict] at h
    | ok b =>
      cases b with
      | Ok t i => rfl
      | InvalidStatusCode c => simp [joinVerdict] at h
      | InvalidResponse m => simp [joinVerdict] at h
      | UnhandledError m => simp [joinVerdict] at h

/-- A result with a verdict stops the reduction loop with that verdict. -/
theorem reduceResults_cons_some (x : Except String (Except BenchmarkError BenchmarkResult))
    (l : List (Except String (Except BenchmarkError BenchmarkResult)))
    (r : BenchmarkResult) (h : joinVerdict x = some r) : reduceResults (x :: l) = some r := by
  cases x with
  | error e =>
    simp only [joinVerdict, Option.some.injEq] at h
    subst h; rfl
  | ok y =>
    cases y with
    | error e =>
      simp only [joinVerdict, Option.some.injEq] at h
      subst h; rfl
    | ok b =>
      cases b with
      | Ok t i => simp [joinVerdict] at h
      | InvalidStatusCode c =>
        simp only [joinVerdict, Option.some.injEq] at h
        subst h; rfl
      | InvalidResponse m =>
        simp only [joinVerdict, Option.some.injEq] at h
        subst h; rfl
      | UnhandledError m =>
        simp only [joinVerdict, Option.some.injEq] at h
        subst h; rfl

/-- The reduction of a list of Success results is empty. -/
theorem reduceResults_all_ok (l : List (Except String (Except BenchmarkError BenchmarkResult)))
    (h : ∀ x ∈ l, joinSuccess x = true) : reduceResults l = none := by
  induction l with
  | nil => rfl
  | cons x xs ih =>
    rw [reduceResults_cons_none x xs (joinVerdict_eq_none x (h x (List.mem_cons_self x xs)))]
    exact ih (fun y hy => h y (List.mem_cons_of_mem x hy))

/-- Whatever the reduction returns is a non-Success outcome. -/
theorem reduceResults_not_success (l : List (Except String (Except BenchmarkError BenchmarkResult)))
    (r : BenchmarkResult) (h : reduceResults l = some r) : isSuccess r = false := by
  induction l with
  | nil => simp [reduceResults] at h
  | cons x xs ih =>
    rcases hv : joinVerdict x with _ | v
    · rw [reduceResults_cons_none x xs hv] at h
      exact ih h
    · rw [reduceResults_cons_some x xs v hv] at h
      injection h with h2
      subst h2
      exact joinVerdict_some_not_success x v hv

/-- The reduction scans left to right: it inspects the second list only when
the first is all Success. -/
theorem reduceResults_append_none
    (l1 l2 : List (Except String (Except BenchmarkError BenchmarkResult)))
    (h : reduceResults l1 = none) : reduceResults (l1 ++ l2) = reduceResults l2 := by
  induction l1 with
  | nil => rfl
  | cons x xs ih =>
    rcases hv : joinVerdict x with _ | v
    · rw [reduceResults_cons_none x xs hv] at h
      rw [List.cons_append, reduceResults_cons_none x (xs ++ l2) hv]
      exact ih h
    · rw [reduceResults_cons_some x xs v hv] at h
      cases h

/-- The reduction stops at a verdict in its first segment. -/
theorem reduceResults_append_some
    (l1 l2 : List (Except String (Except BenchmarkError BenchmarkResult)))
    (r : BenchmarkResult) (h : reduceResults l1 = some r) :
    reduceResults (l1 ++ l2) = some r := by
  induction l1 with
  | nil => simp [reduceResults] at h
  | cons x xs ih =>
    rcases hv : joinVerdict x with _ | v
    · rw [reduceResults_cons_none x xs hv] at h
      rw [List.cons_append, reduceResults_cons_none x (xs ++ l2) hv]
      exact ih h
    · rw [reduceResults_cons_some x xs v hv] at h
      injection h with h2
      subst h2
      rw [List.cons_append]
      exact reduceResults_cons_some x (xs ++ l2) v hv

/-- If every earlier task succeeds and task `j` produces a verdict, the
reduction over the whole range returns that verdict. -/
theorem reduceResults_range_first (f : Nat → Except String (Except BenchmarkError BenchmarkResult))
    (N j : Nat) (hj : j < N) (hpre : ∀ i, i < j → joinSuccess (f i) = true)
    (r : BenchmarkResult) (hr : joinVerdict (f j) = some r) :
    reduceResults ((List.range N).map f) = some r := by
  obtain ⟨k, rfl⟩ : ∃ k, N = (j + 1) + k := ⟨N - (j + 1), by omega⟩
  rw [List.range_add, List.map_append]
  apply reduceResults_append_some
  rw [List.range_succ, List.map_append]
  have h0 : reduceResults ((List.range j).map f) = none := by
    apply reduceResults_all_ok
    intro x hx
    rw [List.mem_map] at hx
    obtain ⟨i, hi, rfl⟩ := hx
    exact hpre i (List.mem_range.mp hi)
  rw [reduceResults_append_none _ _ h0]
  exact reduceResults_cons_some (f j) [] r hr

/-- If some task in the range fails, the reduction returns some verdict. -/
theorem reduceResults_range_some (f : Nat → Except String (Except BenchmarkError BenchmarkResult))
    (N j : Nat) (hj : j < N) (hfail : joinSuccess (f j) = false) :
    ∃ r, reduceResults ((List.range N).map f) = some r := by
  classical
  have hP : ∃ i, i < N ∧ joinSuccess (f i) = false := ⟨j, hj, hfail⟩
  obtain ⟨hlt, hfa⟩ := Nat.find_spec hP
  obtain ⟨r, hr⟩ := joinVerdict_eq_some _ hfa
  refine ⟨r, reduceResults_range_first f N (Nat.find hP) hlt ?_ r hr⟩
  intro i hi
  have hmin : ¬ (i < N ∧ joinSuccess (f i) = false) := Nat.find_min hP hi
  have hiN : i < N := Nat.lt_trans hi hlt
  rcases Bool.eq_false_or_eq_true (joinSuccess (f i)) with hfalse | htrue
  · exact hfalse
  · exact absurd ⟨hiN, htrue⟩ hmin

/-- C3: for every iteration count `N ≥ 0`, running the engine with a
scenario whose every invocation returns Success yields Success with
`iterations = N` and `elapsed = clk.batchStop - clk.batchStart` — exactly
the fan-out/fan-in window measured between the instant sampled after the
warm-up succeeded (main.rs:204) and the instant after `join_all`
(main.rs:219), a non-negative duration by construction (`Nat`). The
equality holds for every `clk.warmNow`, so the warm-up instant does not
enter the elapsed metric. -/
theorem run_requests_all_success {ρ : Type} (N : Nat) (b : Scenario ρ) (clk : Clock)
    (resp : Nat → ρ) (d n : Nat → Nat → Nat)
    (hmk : ∀ i, b.makeRequest i = Except.ok (resp i))
    (hck : ∀ i t, b.checkResponse i t (resp i) = Except.ok (BenchmarkResult.Ok (d i t) (n i t)))
    (hab : ∀ i, b.taskAborts i = none) :
    (run_requests N b clk).1 =
      Except.ok (BenchmarkResult.Ok (clk.batchStop - clk.batchStart) N) := by
  have hred : reduceResults ((List.range N).map (taskJoin b clk)) = none := by
    apply reduceResults_all_ok
    intro x hx
    rw [List.mem_map] at hx
    obtain ⟨i, hi, rfl⟩ := hx
    simp [taskJoin, hab i, taskBody, hmk i, hck i, joinSuccess]
  simp [run_requests, hmk 0, hck 0, hred]

/-- Witness for C3 at the concrete always-succeeding scenario with `N = 3`. -/
theorem run_requests_all_success_witness :
    (run_requests 3 allOkScn cClk).1 = Except.ok (BenchmarkResult.Ok 20 3) :=
  run_requests_all_success 3 allOkScn cClk (fun i => i) (fun _ t => t) (fun _ _ => 1)
    (fun _ => rfl) (fun _ _ => rfl) (fun _ => rfl)

/-- C4: the failure asymmetry of `run_requests`. A failure inside a spawned
batch task — a non-Success outcome, an error value returned by the task, or
the task aborting — is folded by the reducer into a non-Success outcome
returned as a value (error and abort cases carrying a "one or more requests
failed" message, main.rs:221-240), while an error raised during the warm-up
invocation propagates out of `run_requests` as an error (the `?` at
main.rs:195-198). -/
theorem run_requests_failure_asymmetry {ρ : Type} (N : Nat) (b : Scenario ρ) (clk : Clock) :
    (∀ e, b.makeRequest 0 = Except.error e → (run_requests N b clk).1 = Except.error e)
    ∧ (∀ resp e, b.makeRequest 0 = Except.ok resp →
        b.checkResponse 0 clk.warmNow resp = Except.error e →
        (run_requests N b clk).1 = Except.error e)
    ∧ (∀ resp d n, b.makeRequest 0 = Except.ok resp →
        b.checkResponse 0 clk.warmNow resp = Except.ok (BenchmarkResult.Ok d n) →
        ∀ j, j < N → joinSuccess (taskJoin b clk j) = false →
        ∃ r, (run_requests N b clk).1 = Except.ok r ∧ isSuccess r = false)
    ∧ (∀ resp d n, b.makeRequest 0 = Except.ok resp →
        b.checkResponse 0 clk.warmNow resp = Except.ok (BenchmarkResult.Ok d n) →
        ∀ j, j < N → (∀ i, i < j → joinSuccess (taskJoin b clk i) = true) →
        ∀ r, joinVerdict (taskJoin b clk j) = some r →
        (run_requests N b clk).1 = Except.ok r)
    ∧ (∀ m, joinVerdict (Except.error m) =
        some (BenchmarkResult.InvalidResponse ("one or more requests failed: " ++ m)))
    ∧ (∀ e, joinVerdict (Except.ok (Except.error e)) =
        some (BenchmarkResult.InvalidResponse ("one or more requests failed: " ++ e.msg))) := by
  refine ⟨?_, ?_, ?_, ?_, fun _ => rfl, fun _ => rfl⟩
  · intro e h
    simp [run_requests, h]
  · intro resp e h1 h2
    simp [run_requests, h1, h2]
  · intro resp d n hmk hck j hj hfail
    obtain ⟨r, hred⟩ := reduceResults_range_some (taskJoin b clk) N j hj hfail
    exact ⟨r, by simp [run_requests, hmk, hck, hred], reduceResults_not_success _ r hred⟩
  · intro resp d n hmk hck j hj hpre r hr
    have hred := reduceResults_range_first (taskJoin b clk) N j hj hpre r hr
    simp [run_requests, hmk, hck, hred]

/-- Witness for C4: concrete instances of all four failure paths. -/
theorem run_requests_failure_asymmetry_witness :
    (run_requests 2 warmErrScn cClk).1 = Except.error (BenchmarkError.HttpReqwest "refused")
    ∧ (run_requests 2 warmCkErrScn cClk).1 = Except.error (BenchmarkError.Json "eof")
    ∧ (∃ r, (run_requests 2 oneErrScn cClk).1 = Except.ok r ∧ isSuccess r = false)
    ∧ (run_requests 2 oneErrScn cClk).1 = Except.ok (BenchmarkResult.InvalidResponse
        ("one or more requests failed: " ++ (BenchmarkError.HttpReqwest "connection reset").msg))
    ∧ (run_requests 2 abortScn cClk).1 = Except.ok (BenchmarkResult.InvalidResponse
        ("one or more requests failed: " ++ "task panicked")) := by
  refine ⟨?_, ?_, ?_, ?_, ?_⟩
  · exact (run_requests_failure_asymmetry 2 warmErrScn cClk).1 _ rfl
  · exact (run_requests_failure_asymmetry 2 warmCkErrScn cClk).2.1 0 _ rfl rfl
  · exact (run_requests_failure_asymmetry 2 oneErrScn cClk).2.2.1 0 cClk.warmNow 1 rfl rfl
      1 (by omega) rfl
  · exact (run_requests_failure_asymmetry 2 oneErrScn cClk).2.2.2.1 0 cClk.warmNow 1 rfl rfl
      1 (by omega) (fun i hi => by
        have h0 : i = 0 := by omega
        subst h0
        rfl) _ rfl
  · exact (run_requests_failure_asymmetry 2 abortScn cClk).2.2.2.1 0 cClk.warmNow 1 rfl rfl
      1 (by omega) (fun i hi => by
        have h0 : i = 0 := by omega
        subst h0
        rfl) _ rfl

/-- Reducing tasks that all returned outcome values selects the first
non-Success outcome in scan order. -/
theorem reduce_map_ok (l : List BenchmarkResult) :
    reduceResults (l.map (fun r => Except.ok (Except.ok r))) = firstNonSuccess l := by
  induction l with
  | nil => rfl
  | cons x xs ih => cases x <;> simp [reduceResults, firstNonSuccess, isSuccess, ih]

/-- A list containing a non-Success outcome has a first non-Success
outcome. -/
theorem firstNonSuccess_some (l : List BenchmarkResult) (x : BenchmarkResult)
    (hx : x ∈ l) (h : isSuccess x = false) : ∃ r, firstNonSuccess l = some r := by
  induction l with
  | nil => cases hx
  | cons y ys ih =>
    rcases Bool.eq_false_or_eq_true (isSuccess y) with hy | hy
    · have hstep : firstNonSuccess (y :: ys) = firstNonSuccess ys := by
        simp [firstNonSuccess, hy]
      rw [hstep]
      rcases List.mem_cons.mp hx with h1 | hmem
      · subst h1
        rw [hy] at h
        cases h
      · exact ih hmem
    · exact ⟨y, by simp [firstNonSuccess, hy]⟩

/-- When no task in the batch aborts, the batch contributes one invocation
per iteration index. -/
theorem trace_no_aborts {ρ : Type} (b : Scenario ρ) (N : Nat)
    (hab : ∀ i, i < N → b.taskAborts i = none) :
    (List.range N).filterMap (fun i =>
      match b.taskAborts i with
      | some _ => none
      | none => some i) = List.range N := by
  induction N with
  | zero => rfl
  | succ n ih =>
    rw [List.range_succ, List.filterMap_append, ih (fun i hi => hab i (by omega))]
    simp [hab n (by omega)]

/-- C5 counterexample: the claim says the scenario call counter equals `N`.
At `N = 2` with a scenario whose iteration 1 fails validation, the engine
performs 3 scenario invocations (the warm-up at index 0 plus both batch
tasks, main.rs:195 and main.rs:206-216), not 2, even though it does return
the failing outcome. -/
theorem run_requests_call_counter_counterexample :
    (run_requests 2 oneBadScn cClk).1 = Except.ok (BenchmarkResult.InvalidResponse "bad value")
    ∧ (run_requests 2 oneBadScn cClk).2 = [0, 0, 1]
    ∧ ¬ (run_requests 2 oneBadScn cClk).2.length = 2 :=
  ⟨rfl, rfl, by decide⟩

/-- C5 amended: when the warm-up succeeds, every one of the `N` spawned
tasks runs to completion and returns an outcome value, and at least one
outcome is non-Success, `run_requests` still invokes the scenario for every
batch iteration (the invocation trace is the warm-up plus all of
`0, …, N-1`, so the call counter is `N + 1` counting the warm-up — no early
cancellation of sibling tasks) and returns the first non-Success outcome
found when scanning the collected results. -/
theorem run_requests_no_early_cancellation {ρ : Type} (N : Nat) (b : Scenario ρ) (clk : Clock)
    (resp : ρ) (d n : Nat) (out : Nat → BenchmarkResult)
    (hmk0 : b.makeRequest 0 = Except.ok resp)
    (hck0 : b.checkResponse 0 clk.warmNow resp = Except.ok (BenchmarkResult.Ok d n))
    (hout : ∀ i, i < N → taskJoin b clk i = Except.ok (Except.ok (out i)))
    (j : Nat) (hjN : j < N) (hjf : isSuccess (out j) = false) :
    (run_requests N b clk).2 = 0 :: List.range N
    ∧ (run_requests N b clk).2.length = N + 1
    ∧ ∃ r, firstNonSuccess ((List.range N).map out) = some r
        ∧ (run_requests N b clk).1 = Except.ok r := by
  have hab : ∀ i, i < N → b.taskAborts i = none := by
    intro i hi
    rcases habi : b.taskAborts i with _ | m
    · rfl
    · have hcontra := hout i hi
      simp [taskJoin, habi] at hcontra
  have hmapeq : (List.range N).map (taskJoin b clk) =
      ((List.range N).map out).map (fun r => Except.ok (Except.ok r)) := by
    rw [List.map_map]
    apply List.map_congr_left
    intro i hi
    exact hout i (List.mem_range.mp hi)
  have hred : reduceResults ((List.range N).map (taskJoin b clk)) =
      firstNonSuccess ((List.range N).map out) := by
    rw [hmapeq, reduce_map_ok]
  obtain ⟨r, hr⟩ := firstNonSuccess_some ((List.range N).map out) (out j)
    (List.mem_map_of_mem out (List.mem_range.mpr hjN)) hjf
  have htr := trace_no_aborts b N hab
  have hrun : run_requests N b clk = (Except.ok r, 0 :: List.range N) := by
    simp [run_requests, hmk0, hck0, hred, hr, htr]
  rw [hrun]
  exact ⟨rfl, by simp, r, hr, rfl⟩

/-- Witness for the amended C5 at the concrete one-bad-iteration scenario
with `N = 2`. -/
theorem run_requests_no_early_cancellation_witness :
    (run_requests 2 oneBadScn cClk).2 = 0 :: List.range 2
    ∧ (run_requests 2 oneBadScn cClk).2.length = 2 + 1
    ∧ ∃ r, firstNonSuccess ((List.range 2).map (fun i =>
          if i = 1 then BenchmarkResult.InvalidResponse "bad value"
          else BenchmarkResult.Ok (cClk.taskStart i) 1)) = some r
        ∧ (run_requests 2 oneBadScn cClk).1 = Except.ok r :=
  run_requests_no_early_cancellation 2 oneBadScn cClk 0 cClk.warmNow 1
    (fun i => if i = 1 then BenchmarkResult.InvalidResponse "bad value"
      else BenchmarkResult.Ok (cClk.taskStart i) 1)
    rfl rfl
    (fun i hi => by
      have h01 : i = 0 ∨ i = 1 := by omega
      rcases h01 with h0 | h1
      · subst h0; rfl
      · subst h1; rfl)
    1 (by omega) rfl

/-- The position scan finds nothing when no occupied slot matches the pid
(and no examined child's lock fails). -/
theorem scanPos_not_found (pid : Nat) (l : List (Option Child))
    (h : ∀ c, some c ∈ l → c.lockFails = false ∧ c.pid ≠ pid) :
    scanPos pid l = (none, false) := by
  induction l with
  | nil => rfl
  | cons slot rest ih =>
    have hrest : scanPos pid rest = (none, false) :=
      ih (fun c hc => h c (List.mem_cons_of_mem slot hc))
    cases slot with
    | none => simp [scanPos, hrest]
    | some c =>
      have hc := h c (List.mem_cons_self _ _)
      simp [scanPos, hc.1, hc.2, hrest]

/-- The position scan returns the index of the first matching occupied slot
when the slots before it neither match nor fail to lock. -/
theorem scanPos_found (pid : Nat) (l1 l2 : List (Option Child)) (c : Child)
    (h1 : ∀ c', some c' ∈ l1 → c'.lockFails = false ∧ c'.pid ≠ pid)
    (hcl : c.lockFails = false) (hpid : c.pid = pid) :
    scanPos pid (l1 ++ some c :: l2) = (some l1.length, false) := by
  induction l1 with
  | nil => simp [scanPos, hcl, hpid]
  | cons slot rest ih =>
    have hrest := ih (fun c' hc' => h1 c' (List.mem_cons_of_mem slot hc'))
    cases slot with
    | none => simp [scanPos, hrest]
    | some c' =>
      have hc' := h1 c' (List.mem_cons_self _ _)
      simp [scanPos, hc'.1, hc'.2, hrest]

/-- C6: `terminate` on a registered process that has already exited on its
own returns success (the liveness probe finds it exited and killing is a
no-op, process_manager.rs:119-122), while `terminate` for a handle whose pid
is not present in the registry returns `ChildNotFound`
(process_manager.rs:86-88). -/
theorem kill_idempotent_and_not_found (reg : Registry) (child : Child)
    (hcl : child.lockFails = false) (hrl : reg.lockFails = false) :
    (∀ l1 l2, reg.slots = l1 ++ some child :: l2 →
      (∀ c', some c' ∈ l1 → c'.lockFails = false ∧ c'.pid ≠ child.pid) →
      child.running = false →
      (ProcessManager.kill reg child).1 = none)
    ∧ ((∀ c', some c' ∈ reg.slots → c'.lockFails = false ∧ c'.pid ≠ child.pid) →
      (ProcessManager.kill reg child).1 = some (PMError.ChildNotFound child.pid)) := by
  constructor
  · intro l1 l2 hslots hl1 hrun
    have hscan : scanPos child.pid reg.slots = (some l1.length, false) := by
      rw [hslots]
      exact scanPos_found child.pid l1 l2 child hl1 hcl rfl
    have hget : reg.slots[l1.length]? = some (some child) := by
      rw [hslots, List.getElem?_append_right (le_refl l1.length)]
      simp
    have hkp : kill_process child = (none, child) := by
      simp [kill_process, hcl, hrun]
    simp [ProcessManager.kill, hcl, hrl, hscan, hget, hkp]
  · intro hall
    have hscan : scanPos child.pid reg.slots = (none, false) :=
      scanPos_not_found child.pid reg.slots hall
    simp [ProcessManager.kill, hcl, hrl, hscan]

/-- Witness for C6: a registered already-exited pid-1 child is terminated
without error; terminating pid 2 against an empty registry reports
`ChildNotFound 2`. -/
theorem kill_idempotent_and_not_found_witness :
    (ProcessManager.kill
      { lockFails := false,
        slots := [some { pid := 1, running := false, lockFails := false, tryWaitErr := false }] }
      { pid := 1, running := false, lockFails := false, tryWaitErr := false }).1 = none
    ∧ (ProcessManager.kill { lockFails := false, slots := [] }
      { pid := 2, running := true, lockFails := false, tryWaitErr := false }).1
        = some (PMError.ChildNotFound 2) := by
  constructor
  · exact (kill_idempotent_and_not_found _ _ rfl rfl).1 [] [] rfl
      (fun c' hc' => by cases hc') rfl
  · exact (kill_idempotent_and_not_found _ _ rfl rfl).2 (fun c' hc' => by cases hc')

/-- `kill_process` never errors on a child whose lock is healthy. -/
theorem kill_process_no_lock (c : Child) (h : c.lockFails = false) :
    (kill_process c).1 = none := by
  cases h2 : c.tryWaitErr <;> cases h3 : c.running <;> simp [kill_process, h, h2, h3]

/-- A child processed without error by `kill_process` whose liveness probe
did not itself error ends up exited. -/
theorem kill_process_ok_exits (c c2 : Child) (h : kill_process c = (none, c2))
    (hte : c2.tryWaitErr = false) : c2.running = false := by
  cases h1 : c.lockFails with
  | true => simp [kill_process, h1] at h
  | false =>
    cases h2 : c.tryWaitErr with
    | true =>
      simp [kill_process, h1, h2] at h
      subst h
      simp [h2] at hte
    | false =>
      cases h3 : c.running with
      | true =>
        simp [kill_process, h1, h2, h3] at h
        subst h
        rfl
      | false =>
        simp [kill_process, h1, h2, h3] at h
        subst h
        exact h3

/-- An error-free run of the pop loop leaves nothing unpopped. -/
theorem killLoop_none_rem (l : List (Option Child)) (h : (killLoop l).1 = none) :
    (killLoop l).2.1 = [] := by
  induction l with
  | nil => rfl
  | cons o rest ih =>
    cases o with
    | none => exact ih h
    | some c =>
      rcases hkp : kill_process c with ⟨e, c2⟩
      cases e with
      | none =>
        have h' : (killLoop rest).1 = none := by
          simp [killLoop, hkp] at h
          exact h
        simp [killLoop, hkp]
        exact ih h'
      | some e' => simp [killLoop, hkp] at h

/-- The pop loop reports no error when no child's lock fails. -/
theorem killLoop_no_lockfail (l : List (Option Child))
    (h : ∀ c, some c ∈ l → c.lockFails = false) : (killLoop l).1 = none := by
  induction l with
  | nil => rfl
  | cons o rest ih =>
    have hrest := ih (fun c hc => h c (List.mem_cons_of_mem o hc))
    cases o with
    | none => exact hrest
    | some c =>
      have hc := h c (List.mem_cons_self _ _)
      have he : (kill_process c).1 = none := kill_process_no_lock c hc
      rcases hkp : kill_process c with ⟨e, c2⟩
      rw [hkp] at he
      subst he
      simp [killLoop, hkp, hrest]

/-- Every child the pop loop processed whose liveness probe did not error is
exited afterwards. -/
theorem killLoop_processed_exits (l : List (Option Child)) :
    ∀ c ∈ (killLoop l).2.2, c.tryWaitErr = false → c.running = false := by
  induction l with
  | nil => intro c hc; cases hc
  | cons o rest ih =>
    cases o with
    | none => exact ih
    | some c =>
      rcases hkp : kill_process c with ⟨e, c2⟩
      cases e with
      | some e' =>
        intro c' hc'
        simp [killLoop, hkp] at hc'
      | none =>
        intro c' hc' hte
        simp [killLoop, hkp] at hc'
        rcases hc' with rfl | hmem
        · exact kill_process_ok_exits c c' hkp hte
        · exact ih c' hmem hte

/-- The pop loop over a concatenation whose first part is error-free runs
the first part fully and continues with the second. -/
theorem killLoop_append_ok (l1 l2 : List (Option Child)) (h : (killLoop l1).1 = none) :
    killLoop (l1 ++ l2) =
      ((killLoop l2).1, (killLoop l2).2.1, (killLoop l1).2.2 ++ (killLoop l2).2.2) := by
  induction l1 with
  | nil => rfl
  | cons o rest ih =>
    cases o with
    | none => exact ih h
    | some c =>
      rcases hkp : kill_process c with ⟨e, c2⟩
      cases e with
      | some e' => simp [killLoop, hkp] at h
      | none =>
        have h' : (killLoop rest).1 = none := by
          simp [killLoop, hkp] at h
          exact h
        simp [killLoop, hkp, ih h']

/-- C7 counterexample: the claim says that when no per-entry termination
reports an internal error, every popped process has been observed exited.
With a single registered running child whose `try_wait` probe errors,
`kill_processes` reports no error and empties the registry, yet the popped
process was never observed exited — it is still running
(process_manager.rs:128-133 logs the probe error and returns `Ok`). -/
theorem kill_processes_claim_counterexample :
    (kill_processes { lockFails := false, slots := [some c7Child] }).1 = none
    ∧ (kill_processes { lockFails := false, slots := [some c7Child] }).2.1.slots = []
    ∧ (kill_processes { lockFails := false, slots := [some c7Child] }).2.2 = [c7Child]
    ∧ c7Child.running = true :=
  ⟨rfl, rfl, rfl, rfl⟩

/-- C7 amended: `terminate_all` pops one entry at a time until the registry
is empty. When no per-entry termination reports an internal error, the
registry is empty afterwards and every popped process whose liveness probe
(`try_wait`) did not itself error has been observed exited (a probe error is
only logged and the process is left as it was); a single per-entry internal
error (a lock failure) aborts the loop and leaves the entries not yet popped
still registered, their children untouched. -/
theorem kill_processes_amended (reg : Registry) :
    ((kill_processes reg).1 = none →
      (kill_processes reg).2.1.slots = []
      ∧ ∀ c ∈ (kill_processes reg).2.2, c.tryWaitErr = false → c.running = false)
    ∧ (∀ l1 c l2, reg.lockFails = false → reg.slots = l1 ++ some c :: l2 →
      c.lockFails = true → (∀ c', some c' ∈ l2 → c'.lockFails = false) →
      (kill_processes reg).1 = some PMError.Lock
      ∧ (kill_processes reg).2.1.slots = l1) := by
  constructor
  · intro h
    cases hlf : reg.lockFails with
    | true => simp [kill_processes, hlf] at h
    | false =>
      have h1 : (killLoop reg.slots.reverse).1 = none := by
        simp [kill_processes, hlf] at h
        exact h
      constructor
      · simp [kill_processes, hlf, killLoop_none_rem _ h1]
      · intro c hc hte
        apply killLoop_processed_exits reg.slots.reverse c _ hte
        simp [kill_processes, hlf] at hc
        exact hc
  · intro l1 c l2 hlf hslots hcl hl2
    have hrev : reg.slots.reverse = l2.reverse ++ some c :: l1.reverse := by
      rw [hslots]
      simp
    have hok : (killLoop l2.reverse).1 = none :=
      killLoop_no_lockfail _ (fun c' hc' => hl2 c' (by rwa [List.mem_reverse] at hc'))
    have hkp : kill_process c = (some PMError.Lock, c) := by
      simp [kill_process, hcl]
    have hcons : killLoop (some c :: l1.reverse) = (some PMError.Lock, l1.reverse, []) := by
      simp [killLoop, hkp]
    have hloop : killLoop reg.slots.reverse =
        (some PMError.Lock, l1.reverse, (killLoop l2.reverse).2.2 ++ []) := by
      rw [hrev, killLoop_append_ok _ _ hok, hcons]
    constructor
    · simp [kill_processes, hlf, hloop]
    · simp [kill_processes, hlf, hloop]

/-- Witness for the amended C7: one healthy running child is popped and
exited with the registry left empty; with a lock-failing child popped first,
the loop aborts with `Lock` and the other child stays registered. -/
theorem kill_processes_amended_witness :
    ((kill_processes { lockFails := false, slots := [some c1Child] }).2.1.slots = []
      ∧ ∀ c ∈ (kill_processes { lockFails := false, slots := [some c1Child] }).2.2,
          c.tryWaitErr = false → c.running = false)
    ∧ ((kill_processes ⟨false, [some c1Child, some ⟨2, true, true, false⟩]⟩).1
        = some PMError.Lock
      ∧ (kill_processes ⟨false, [some c1Child, some ⟨2, true, true, false⟩]⟩).2.1.slots
        = [some c1Child]) := by
  constructor
  · exact (kill_processes_amended _).1 rfl
  · exact (kill_processes_amended _).2 [some c1Child] _ [] rfl rfl rfl
      (fun c' hc' => by cases hc')

/-- What the pop loop has not yet popped is a sub-collection of its input. -/
theorem killLoop_rem_sublist (l : List (Option Child)) : List.Sublist (killLoop l).2.1 l := by
  induction l with
  | nil => exact List.Sublist.refl _
  | cons o rest ih =>
    cases o with
    | none => exact List.Sublist.cons _ ih
    | some c =>
      rcases hkp : kill_process c with ⟨e, c2⟩
      cases e with
      | some e' =>
        simp [killLoop, hkp]
      | none =>
        simp [killLoop, hkp]
        exact List.Sublist.cons _ ih

/-- C8: every operation of the process lifecycle manager — `push`, `kill`
and `kill_processes` — preserves the registry invariant that a live process
identifier appears in at most one occupied slot (`push` assuming the OS
guarantee that a newly spawned live process's pid differs from every live
registered pid). -/
theorem registry_invariant_preserved :
    (∀ reg c, Registry.inv reg →
      (∀ c', some c' ∈ reg.slots → c'.running = true → c.running = true → c'.pid ≠ c.pid) →
      Registry.inv (ProcessManager.push reg c).2)
    ∧ (∀ reg c, Registry.inv reg → Registry.inv (ProcessManager.kill reg c).2)
    ∧ (∀ reg, Registry.inv reg → Registry.inv (kill_processes reg).2.1) := by
  refine ⟨?_, ?_, ?_⟩
  · intro reg c hinv hfresh
    unfold ProcessManager.push
    cases hlf : reg.lockFails with
    | true => simpa [hlf] using hinv
    | false =>
      simp only [hlf, Bool.false_eq_true, if_false]
      show List.Pairwise slotRel (reg.slots ++ [some c])
      rw [List.pairwise_append]
      refine ⟨hinv, List.pairwise_singleton _ _, ?_⟩
      intro a ha b hb
      rw [List.mem_singleton] at hb
      subst hb
      intro ca cb hca hcb hra hrb
      injection hcb with hcb2
      subst hcb2
      exact hfresh ca (hca ▸ ha) hra hrb
  · intro reg c hinv
    have hpw : reg.slots.Pairwise slotRel := hinv
    have herase : ∀ p, Registry.inv { reg with slots := reg.slots.eraseIdx p } :=
      fun p => hpw.sublist (List.eraseIdx_sublist _ _)
    unfold ProcessManager.kill
    split
    · exact hinv
    · split
      · exact hinv
      · dsimp only
        split
        · exact hinv
        · split
          · split
            · split
              · exact herase _
              · exact herase _
            · exact herase _
          · exact hinv
  · intro reg hinv
    have hpw : reg.slots.Pairwise slotRel := hinv
    unfold kill_processes
    split
    · exact hinv
    · show List.Pairwise slotRel (killLoop reg.slots.reverse).2.1.reverse
      have hsub : List.Sublist (killLoop reg.slots.reverse).2.1.reverse reg.slots := by
        have h2 := (killLoop_rem_sublist reg.slots.reverse).reverse
        rwa [List.reverse_reverse] at h2
      exact hpw.sublist hsub

/-- Witness for C8 at small concrete registries. -/
theorem registry_invariant_preserved_witness :
    Registry.inv (ProcessManager.push ⟨false, []⟩ c1Child).2
    ∧ Registry.inv (ProcessManager.kill ⟨false, [some c1Child]⟩ c1Child).2
    ∧ Registry.inv (kill_processes ⟨false, [some c1Child]⟩).2.1 := by
  refine ⟨?_, ?_, ?_⟩
  · exact registry_invariant_preserved.1 ⟨false, []⟩ c1Child List.Pairwise.nil
      (fun c' hc' => by cases hc')
  · exact registry_invariant_preserved.2.1 ⟨false, [some c1Child]⟩ c1Child
      (List.pairwise_singleton _ _)
  · exact registry_invariant_preserved.2.2 ⟨false, [some c1Child]⟩
      (List.pairwise_singleton _ _)

/-- Each loop iteration sleeps `check_interval`, so `k` iterations take at
least `k * check_interval`. -/
theorem elapsedAt_mul_le (dur : Nat → Nat) (p : Nat) (k : Nat) :
    k * p ≤ elapsedAt dur p k := by
  induction k with
  | zero => simp [elapsedAt]
  | succ n ih =>
    rw [Nat.succ_mul]
    show n * p + p ≤ elapsedAt dur p n + dur n + p
    calc n * p + p ≤ elapsedAt dur p n + p := Nat.add_le_add_right ih p
    _ ≤ elapsedAt dur p n + dur n + p := by omega

/-- The elapsed time at the loop head is monotone in the iteration index. -/
theorem elapsedAt_mono (dur : Nat → Nat) (p : Nat) {k K : Nat} (h : k ≤ K) :
    elapsedAt dur p k ≤ elapsedAt dur p K := by
  induction K with
  | zero =>
    have hk0 : k = 0 := by omega
    subst hk0
    exact le_refl _
  | succ n ih =>
    rcases Nat.lt_or_ge k (n + 1) with h1 | h2
    · have hk : k ≤ n := by omega
      calc elapsedAt dur p k ≤ elapsedAt dur p n := ih hk
      _ ≤ elapsedAt dur p (n + 1) := by
        show elapsedAt dur p n ≤ elapsedAt dur p n + dur n + p
        omega
    · have hk : k = n + 1 := by omega
      subst hk
      exact le_refl _

/-- If attempt `K` would succeed and is reached before the deadline, the
loop returns success. -/
theorem waitLoop_success (up : Nat → Bool) (dur : Nat → Nat) (p maxT : Nat)
    (K : Nat) (hK : elapsedAt dur p K < maxT) (hup : up K = true) :
    ∀ fuel k, k ≤ K → K < k + fuel →
    (waitLoop up dur p maxT fuel (elapsedAt dur p k) k).1 = Except.ok () := by
  intro fuel
  induction fuel with
  | zero =>
    intro k hk hK2
    omega
  | succ n ih =>
    intro k hk hK2
    have hlt : elapsedAt dur p k < maxT := lt_of_le_of_lt (elapsedAt_mono dur p hk) hK
    rcases Nat.eq_or_lt_of_le hk with rfl | hlt2
    · simp [waitLoop, hlt, hup]
    · cases hupk : up k with
      | true => simp [waitLoop, hlt, hupk]
      | false =>
        have hstep : waitLoop up dur p maxT (n + 1) (elapsedAt dur p k) k
            = waitLoop up dur p maxT n (elapsedAt dur p k + dur k + p) (k + 1) := by
          simp [waitLoop, hlt, hupk]
        rw [hstep]
        have heq : elapsedAt dur p k + dur k + p = elapsedAt dur p (k + 1) := rfl
        rw [heq]
        exact ih (k + 1) hlt2 (by omega)

/-- When no attempt ever succeeds, the loop reports Timeout, and the total
number of attempts `A` issued from state `(elapsed, k)` satisfies
`elapsed + (A - k - 1) * p < maxT` whenever at least one attempt is made. -/
theorem waitLoop_no_success (up : Nat → Bool) (dur : Nat → Nat) (p maxT : Nat)
    (hup : ∀ j, up j = false) :
    ∀ fuel elapsed k,
    (waitLoop up dur p maxT fuel elapsed k).1 = Except.error HttpError.Timeout
    ∧ k ≤ (waitLoop up dur p maxT fuel elapsed k).2
    ∧ (k < (waitLoop up dur p maxT fuel elapsed k).2 →
        elapsed + ((waitLoop up dur p maxT fuel elapsed k).2 - k - 1) * p < maxT) := by
  intro fuel
  induction fuel with
  | zero =>
    intro elapsed k
    exact ⟨rfl, le_refl _, fun h => absurd h (lt_irrefl _)⟩
  | succ n ih =>
    intro elapsed k
    by_cases hlt : elapsed < maxT
    · have hstep : waitLoop up dur p maxT (n + 1) elapsed k
          = waitLoop up dur p maxT n (elapsed + dur k + p) (k + 1) := by
        simp [waitLoop, hlt, hup k]
      rw [hstep]
      obtain ⟨ih1, ih2, ih3⟩ := ih (elapsed + dur k + p) (k + 1)
      set K := (waitLoop up dur p maxT n (elapsed + dur k + p) (k + 1)).2 with hKdef
      refine ⟨ih1, by omega, ?_⟩
      intro hklt
      rcases Nat.eq_or_lt_of_le ih2 with heq | hlt2
      · rw [← heq]
        have h0 : k + 1 - k - 1 = 0 := by omega
        rw [h0]
        simpa using hlt
      · have h3 := ih3 hlt2
        have hsub : K - k - 1 = (K - (k + 1) - 1) + 1 := by omega
        rw [hsub, Nat.succ_mul]
        set q := (K - (k + 1) - 1) * p with hq
        omega
    · have hstep : waitLoop up dur p maxT (n + 1) elapsed k
          = (Except.error HttpError.Timeout, k) := by
        simp [waitLoop, hlt]
      rw [hstep]
      exact ⟨rfl, le_refl _, fun h => absurd h (lt_irrefl _)⟩

/-- C9: the readiness probe returns success if some poll attempt succeeds
before `max_check_time` elapses; with no successful attempt it returns
Timeout (it terminates rather than polling forever), issuing at most
`⌈max_check_time / check_interval⌉ + 1` attempts. -/
theorem http_wait_for_url_contract (up : Nat → Bool) (dur : Nat → Nat) (p maxT : Nat)
    (hp : 1 ≤ p) :
    (∀ K, up K = true → elapsedAt dur p K < maxT →
      (http_wait_for_url up dur p maxT).1 = Except.ok ())
    ∧ ((∀ j, up j = false) →
      (http_wait_for_url up dur p maxT).1 = Except.error HttpError.Timeout
      ∧ (http_wait_for_url up dur p maxT).2 ≤ (maxT + p - 1) / p + 1) := by
  constructor
  · intro K hup hK
    have h1 := elapsedAt_mul_le dur p K
    have h2 : K ≤ K * p := Nat.le_mul_of_pos_right K (by omega)
    have hKlt : K < maxT := by omega
    unfold http_wait_for_url
    have h0 : (0 : Nat) = elapsedAt dur p 0 := rfl
    rw [h0]
    exact waitLoop_success up dur p maxT K hK hup (maxT + 1) 0 (Nat.zero_le K) (by omega)
  · intro hup
    obtain ⟨h1, h2, h3⟩ := waitLoop_no_success up dur p maxT hup (maxT + 1) 0 0
    refine ⟨h1, ?_⟩
    show (waitLoop up dur p maxT (maxT + 1) 0 0).2 ≤ (maxT + p - 1) / p + 1
    set A := (waitLoop up dur p maxT (maxT + 1) 0 0).2 with hA
    rcases Nat.eq_zero_or_pos A with h0 | hpos
    · rw [h0]
      exact Nat.zero_le _
    · have h4 := h3 (by omega)
      have e1 : A - 0 - 1 = A - 1 := by omega
      rw [e1] at h4
      have h4' : (A - 1) * p < maxT := by simpa using h4
      have h5 : (A - 1) * p ≤ maxT + p - 1 :=
        le_trans (Nat.le_sub_one_of_lt h4') (by omega)
      have h6 : A - 1 ≤ (maxT + p - 1) / p :=
        (Nat.le_div_iff_mul_le (by omega : 0 < p)).mpr h5
      omega

/-- Witness for C9: with interval 1 and deadline 2, an always-up target is
detected, and a never-up target times out within 3 attempts. -/
theorem http_wait_for_url_contract_witness :
    (http_wait_for_url (fun _ => true) (fun _ => 0) 1 2).1 = Except.ok ()
    ∧ (http_wait_for_url (fun _ => false) (fun _ => 0) 1 2).1 = Except.error HttpError.Timeout
    ∧ (http_wait_for_url (fun _ => false) (fun _ => 0) 1 2).2 ≤ (2 + 1 - 1) / 1 + 1 := by
  refine ⟨?_, ?_, ?_⟩
  · exact (http_wait_for_url_contract (fun _ => true) (fun _ => 0) 1 2 (by omega)).1 0 rfl
      (by decide)
  · exact ((http_wait_for_url_contract (fun _ => false) (fun _ => 0) 1 2 (by omega)).2
      (fun j => rfl)).1
  · exact ((http_wait_for_url_contract (fun _ => false) (fun _ => 0) 1 2 (by omega)).2
      (fun j => rfl)).2

/-- The invocation trace of the engine is either just the warm-up `[0]` or
the warm-up followed by the non-aborted batch iterations. -/
theorem run_requests_trace_shape {ρ : Type} (N : Nat) (b : Scenario ρ) (clk : Clock) :
    (run_requests N b clk).2 = [0]
    ∨ (run_requests N b clk).2 = 0 :: (List.range N).filterMap (fun i =>
        match b.taskAborts i with
        | some _ => none
        | none => some i) := by
  unfold run_requests
  cases h1 : b.makeRequest 0 with
  | error e => exact Or.inl rfl
  | ok resp =>
    dsimp only
    cases h2 : b.checkResponse 0 clk.warmNow resp with
    | error e => exact Or.inl rfl
    | ok r =>
      cases r with
      | Ok t i =>
        dsimp only
        cases reduceResults ((List.range N).map (taskJoin b clk)) with
        | none => exact Or.inr rfl
        | some other => exact Or.inr rfl
      | InvalidStatusCode c => exact Or.inl rfl
      | InvalidResponse m => exact Or.inl rfl
      | UnhandledError m => exact Or.inl rfl

/-- C10: the warm-up always uses iteration index 0 and the engine only ever
uses indices 0 and `0, …, N-1`; all fixture accesses of the
matrix-multiplication scenario (`matrices[i]`, `matrices[i+1]`,
`expected[i]`) are in bounds for every index the engine uses exactly when
`iteration_count ≥ 1`; for `iteration_count = 0` the fixture vectors have
lengths 1 and 0, and the warm-up's reads of `matrices[1]` and `expected[0]`
are out of bounds. -/
theorem matrix_fixture_bounds (gen : Nat → Nat → Nat → Nat) (N : Nat) :
    (∀ (ρ : Type) (b : Scenario ρ) (clk : Clock),
      ((run_requests N b clk).2.head? = some 0)
      ∧ ∀ i ∈ (run_requests N b clk).2, i = 0 ∨ i < N)
    ∧ (1 ≤ N → ∀ i, i = 0 ∨ i < N →
        (mm_make_request_reads (benchmark_matrix_multiplication_fixture gen N) i).isSome = true
        ∧ (mm_check_response_read (benchmark_matrix_multiplication_fixture gen N) i).isSome
            = true)
    ∧ (N = 0 →
        (benchmark_matrix_multiplication_fixture gen N).matrices.length = 1
        ∧ (benchmark_matrix_multiplication_fixture gen N).expected.length = 0
        ∧ (benchmark_matrix_multiplication_fixture gen N).matrices[1]? = none
        ∧ (benchmark_matrix_multiplication_fixture gen N).expected[0]? = none
        ∧ mm_make_request_reads (benchmark_matrix_multiplication_fixture gen N) 0 = none
        ∧ mm_check_response_read (benchmark_matrix_multiplication_fixture gen N) 0 = none) := by
  have hlen : (benchmark_matrix_multiplication_fixture gen N).matrices.length = N + 1 := by
    simp [benchmark_matrix_multiplication_fixture]
  have hlen2 : (benchmark_matrix_multiplication_fixture gen N).expected.length = N := by
    simp [benchmark_matrix_multiplication_fixture]
  refine ⟨?_, ?_, ?_⟩
  · intro ρ b clk
    rcases run_requests_trace_shape N b clk with h | h <;> rw [h]
    · exact ⟨rfl, by simp⟩
    · refine ⟨rfl, ?_⟩
      intro i hi
      rcases List.mem_cons.mp hi with rfl | hmem
      · exact Or.inl rfl
      · right
        obtain ⟨a, ha, heq⟩ := List.mem_filterMap.mp hmem
        cases hab : b.taskAborts a with
        | some m => rw [hab] at heq; cases heq
        | none =>
          rw [hab] at heq
          injection heq with heq2
          subst heq2
          exact List.mem_range.mp ha
  · intro hN i hi
    have hiN : i < N := by
      rcases hi with rfl | h
      · omega
      · exact h
    have hb1 : i < (benchmark_matrix_multiplication_fixture gen N).matrices.length := by
      rw [hlen]
      omega
    have hb2 : i + 1 < (benchmark_matrix_multiplication_fixture gen N).matrices.length := by
      rw [hlen]
      omega
    have hb3 : i < (benchmark_matrix_multiplication_fixture gen N).expected.length := by
      rw [hlen2]
      omega
    constructor
    · simp [mm_make_request_reads, List.getElem?_eq_getElem hb1, List.getElem?_eq_getElem hb2]
    · simp [mm_check_response_read, List.getElem?_eq_getElem hb3]
  · intro h0
    subst h0
    have hm1 : (benchmark_matrix_multiplication_fixture gen 0).matrices[1]? = none :=
      List.getElem?_eq_none_iff.mpr (by rw [hlen])
    have he0 : (benchmark_matrix_multiplication_fixture gen 0).expected[0]? = none :=
      List.getElem?_eq_none_iff.mpr (by rw [hlen2])
    have hb0 : (0 : Nat) < (benchmark_matrix_multiplication_fixture gen 0).matrices.length := by
      rw [hlen]
      omega
    refine ⟨by rw [hlen], by rw [hlen2], hm1, he0, ?_, he0⟩
    simp [mm_make_request_reads, List.getElem?_eq_getElem hb0, hm1]

/-- Witness for C10: concrete instances of the in-bounds case (`N = 2`,
index 1), the out-of-bounds case (`N = 0`), and the warm-up-first trace. -/
theorem matrix_fixture_bounds_witness :
    ((run_requests 2 oneBadScn cClk).2.head? = some 0)
    ∧ (mm_make_request_reads
        (benchmark_matrix_multiplication_fixture (fun _ _ _ => 0) 2) 1).isSome = true
    ∧ (benchmark_matrix_multiplication_fixture (fun _ _ _ => 0) 0).matrices[1]? = none := by
  refine ⟨?_, ?_, ?_⟩
  · exact ((matrix_fixture_bounds (fun _ _ _ => 0) 2).1 Nat oneBadScn cClk).1
  · exact ((matrix_fixture_bounds (fun _ _ _ => 0) 2).2.1 (by omega) 1 (Or.inr (by omega))).1
  · exact ((matrix_fixture_bounds (fun _ _ _ => 0) 0).2.2 rfl).2.2.1
